import Mathlib

/-!
Shallow embedding of the smart telemetry storage pipeline
(src/backend/libs/smart_telemetry_storage.py) together with its
database-facing behaviour, and proofs about the spec-level claims.

Python floats are modelled as rationals, machine ints as `Int`/`Nat`,
dictionaries as association lists preserving insertion order, and the
SQL tables as lists of row structures inside a `DB` state.
-/

namespace UAV

/-- A Python value appearing in a telemetry message `data` mapping, as
produced by the decoder (`log_parser.parse_mavlink_log_bytes`, via
pymavlink `to_dict`): numeric and string scalars, numpy vectors of
scalars (which expose `tolist`), Python lists/tuples, and — to model the
`except (TypeError, AttributeError)` branch of `_make_json_safe` — an
object whose `tolist` call raises one of those exceptions (carrying its
`str` representation). -/
inductive PyVal where
  | intV : Int → PyVal
  | floatV : ℚ → PyVal
  | strV : String → PyVal
  | arr : List ℚ → PyVal
  | listV : List PyVal → PyVal
  | tupleV : List PyVal → PyVal
  | badTolist : String → PyVal

/-- Python `str()` of a scalar-or-vector value (only its totality and
determinism matter to the claims; the exact float rendering of CPython
is not reproduced). -/
def pyStrQ (q : ℚ) : String := toString q

/-- Python `str()` of a `PyVal`. -/
def pyStr : PyVal → String
  | .intV n => toString n
  | .floatV q => pyStrQ q
  | .strV s => s
  | .arr xs => "array(" ++ String.intercalate ", " (xs.map pyStrQ) ++ ")"
  | .listV xs => "[" ++ String.intercalate ", " (xs.attach.map fun x => pyStr x.1) ++ "]"
  | .tupleV xs => "(" ++ String.intercalate ", " (xs.attach.map fun x => pyStr x.1) ++ ")"
  | .badTolist r => r
termination_by v => sizeOf v
decreasing_by
  all_goals
    have := List.sizeOf_lt_of_mem x.2
    simp only [PyVal.listV.sizeOf_spec, PyVal.tupleV.sizeOf_spec] <;> omega

/-- A value is JSON-serialization-safe when it is a scalar, or a
list/tuple of safe values: numpy arrays and `tolist`-raising objects are
not directly serializable. -/
def jsonSafe : PyVal → Bool
  | .intV _ => true
  | .floatV _ => true
  | .strV _ => true
  | .arr _ => false
  | .listV xs => xs.attach.all fun x => jsonSafe x.1
  | .tupleV xs => xs.attach.all fun x => jsonSafe x.1
  | .badTolist _ => false
termination_by v => sizeOf v
decreasing_by
  all_goals
    have := List.sizeOf_lt_of_mem x.2
    simp only [PyVal.listV.sizeOf_spec, PyVal.tupleV.sizeOf_spec] <;> omega

/-- Shapes the decoder contract (spec section 6) allows for one field
value: a scalar, a vector (numpy array or list/tuple whose elements are
scalars or numpy arrays), or a value whose `tolist` raises. -/
def decoderShaped : PyVal → Bool
  | .intV _ => true
  | .floatV _ => true
  | .strV _ => true
  | .arr _ => true
  | .listV xs => xs.all fun x =>
      match x with
      | .intV _ => true
      | .floatV _ => true
      | .strV _ => true
      | .arr _ => true
      | .badTolist _ => true
      | _ => false
  | .tupleV xs => xs.all fun x =>
      match x with
      | .intV _ => true
      | .floatV _ => true
      | .strV _ => true
      | .arr _ => true
      | .badTolist _ => true
      | _ => false
  | .badTolist _ => true

/-- Does calling `tolist` on this value raise (the modelled
`TypeError`/`AttributeError`)? -/
def raisesTolist : PyVal → Bool
  | .badTolist _ => true
  | _ => false

/-- Element coercion inside the list/tuple branch of `_make_json_safe`:
`x.tolist() if hasattr(x, 'tolist') else x`. -/
def coerceElem : PyVal → PyVal
  | .arr xs => .listV (xs.map PyVal.floatV)
  | v => v

/-- One key of `_make_json_safe`: the body of the `try` block, with the
`except (TypeError, AttributeError)` branch substituting `str(value)`
whenever a `tolist` call inside the block raises. -/
def makeJsonSafeVal (v : PyVal) : PyVal :=
  match v with
  | .arr xs => .listV (xs.map PyVal.floatV)
  | .badTolist r => .strV r
  | .listV xs =>
      if xs.any raisesTolist then .strV (pyStr (.listV xs))
      else .listV (xs.map coerceElem)
  | .tupleV xs =>
      if xs.any raisesTolist then .strV (pyStr (.tupleV xs))
      else .listV (xs.map coerceElem)
  | v => v

/-- `_make_json_safe`: coerce every field of a message `data` mapping. -/
def makeJsonSafe (data : List (String × PyVal)) : List (String × PyVal) :=
  data.map fun kv => (kv.1, makeJsonSafeVal kv.2)

/-- One decoded telemetry record (`message_type`, `timestamp`, `data`). -/
structure Msg where
  message_type : String
  timestamp : ℚ
  data : List (String × PyVal)

/-- Placeholder record used for (provably in-range) list indexing. -/
def dMsg : Msg := ⟨"", 0, []⟩

/-- `SmartTelemetryStorage.critical_messages`. -/
def criticalMessages : List String :=
  ["MODE", "HEARTBEAT", "ARM", "DISARM", "TAKEOFF", "LAND",
   "STATUSTEXT", "ERROR", "CRITICAL", "ALERT", "EMERGENCY",
   "GPS_FIX_TYPE", "EKF_STATUS_REPORT", "VIBRATION", "POWER_STATUS"]

/-- `SmartTelemetryStorage.high_frequency_messages`: type, sample rate,
key fields. -/
def highFrequencyMessages : List (String × Nat × List String) :=
  [("ATTITUDE", 10, ["roll", "pitch", "yaw"]),
   ("GLOBAL_POSITION_INT", 5, ["lat", "lon", "alt", "relative_alt"]),
   ("LOCAL_POSITION_NED", 10, ["x", "y", "z"]),
   ("VFR_HUD", 5, ["airspeed", "groundspeed", "alt", "throttle"]),
   ("RAW_IMU", 20, ["xacc", "yacc", "zacc"]),
   ("SERVO_OUTPUT_RAW", 10, ["servo1_raw", "servo2_raw", "servo3_raw", "servo4_raw"])]

/-- The configured target sample count of a high-frequency type. -/
def hfSampleRate (t : String) : Option Nat :=
  (highFrequencyMessages.lookup t).map (·.1)

/-- Helper for Python list slicing: `c` counts how many elements are
still to be skipped before the next kept one. -/
def takeEveryAux {α : Type} (step : Nat) : Nat → List α → List α
  | _, [] => []
  | 0, a :: rest => a :: takeEveryAux step (step - 1) rest
  | c + 1, _ :: rest => takeEveryAux step c rest

/-- Python list slicing `l[::step]` for `step ≥ 1`: elements at
positions `0, step, 2*step, …`. -/
def takeEvery {α : Type} (step : Nat) (l : List α) : List α :=
  takeEveryAux step 0 l

/-- Storage tier assigned by `_analyze_messages` (the string values
`critical`, `sampled`, `full` of `storage_strategy`). -/
inductive Strategy where
  | critical
  | sampled
  | full
deriving DecidableEq, Repr

/-- The storage-strategy string written to `smart_telemetry`. -/
def Strategy.toStr : Strategy → String
  | .critical => "critical"
  | .sampled => "sampled"
  | .full => "full"

/-- One entry of the storage plan produced by `_analyze_messages`:
`original_count` and `sample_rate` are present only for sampled
entries (the Python dict omits the keys otherwise). -/
structure PlanEntry where
  strategy : Strategy
  indices : List Nat
  original_count : Option Nat
  sample_rate : Option Nat
deriving DecidableEq, Repr

/-- `d[key].append(x)` on an insertion-ordered `defaultdict(list)`. -/
def insertApp {β : Type} : List (String × List β) → String → β → List (String × List β)
  | [], t, x => [(t, [x])]
  | (t', xs) :: rest, t, x =>
      if t' = t then (t', xs ++ [x]) :: rest else (t', xs) :: insertApp rest t x

/-- `message_types[msg_type].append(i)` on an insertion-ordered dict. -/
def insertIdx (acc : List (String × List Nat)) (t : String) (i : Nat) :
    List (String × List Nat) :=
  insertApp acc t i

/-- Loop of `_analyze_messages` grouping indices by message type
(`for i, msg in enumerate(messages)`), starting at index `i`. -/
def groupIdxAux (i : Nat) : List Msg → List (String × List Nat) → List (String × List Nat)
  | [], acc => acc
  | m :: rest, acc => groupIdxAux (i + 1) rest (insertIdx acc m.message_type i)

/-- Index groups by message type, in first-occurrence order. -/
def groupIndices (msgs : List Msg) : List (String × List Nat) :=
  groupIdxAux 0 msgs []

/-- The positions (starting from `i`) of records of type `t`. -/
def posFrom (i : Nat) (t : String) : List Msg → List Nat
  | [] => []
  | m :: rest =>
      if m.message_type = t then i :: posFrom (i + 1) t rest
      else posFrom (i + 1) t rest

/-- Per-type branch of `_analyze_messages`: critical set first, then the
high-frequency table, then the rare-message exemption (`count < 100`),
else bulk sampling with a fixed target of 50. -/
def planFor (t : String) (indices : List Nat) : PlanEntry :=
  let count := indices.length
  if t ∈ criticalMessages then
    ⟨.critical, indices, none, none⟩
  else
    match hfSampleRate t with
    | some sampleRate =>
        let step := if count > sampleRate then max 1 (count / sampleRate) else 1
        let sampled := takeEvery step indices
        ⟨.sampled, sampled, some count, some sampled.length⟩
    | none =>
        if count < 100 then ⟨.full, indices, none, none⟩
        else
          let step := max 1 (count / 50)
          let sampled := takeEvery step indices
          ⟨.sampled, sampled, some count, some sampled.length⟩

/-- `_analyze_messages`: the storage plan for one ingestion run. -/
def analyzeMessages (msgs : List Msg) : List (String × PlanEntry) :=
  (groupIndices msgs).map fun p => (p.1, planFor p.1 p.2)

/-- Python substring test `pat in s` (for non-empty `pat`). -/
def containsSub (s pat : String) : Bool :=
  2 ≤ (s.splitOn pat).length

/-- The progress band of `_determine_phase_tags`: Python computes
`progress = index / total_messages` with float division; modelled over
the rationals. -/
def progressTag (index total : Nat) : String :=
  let progress : ℚ := (index : ℚ) / (total : ℚ)
  if progress < 1/10 then "startup"
  else if progress < 1/5 then "preflight"
  else if progress < 4/5 then "flight"
  else if progress < 19/20 then "landing"
  else "shutdown"

/-- `_determine_phase_tags`: one progress tag, then the additive
message-specific tags. -/
def determinePhaseTags (msg : Msg) (index total : Nat) : List String :=
  let tags := [progressTag index total]
  let t := msg.message_type
  if t = "TAKEOFF" ∨ t = "LAND" then tags ++ ["critical_event"]
  else if t = "MODE" then tags ++ ["mode_change"]
  else if containsSub t "ERROR" ∨ containsSub t "ALERT" then tags ++ ["alert"]
  else tags

/-- `by_type[msg["message_type"]].append(msg)` on an insertion-ordered
dict. -/
def insertMsg (acc : List (String × List Msg)) (t : String) (m : Msg) :
    List (String × List Msg) :=
  insertApp acc t m

/-- Grouping loop shared by `_compute_flight_statistics` and
`_create_message_summaries`. -/
def groupMsgsAux : List Msg → List (String × List Msg) → List (String × List Msg)
  | [], acc => acc
  | m :: rest, acc => groupMsgsAux rest (insertMsg acc m.message_type m)

/-- Messages grouped by type, in first-occurrence order. -/
def groupMsgs (msgs : List Msg) : List (String × List Msg) :=
  groupMsgsAux msgs []

/-- Python `max` over a list of rationals (guarded non-empty at every
call site; the empty case never arises). -/
def qlistMax : List ℚ → ℚ
  | [] => 0
  | a :: rest => rest.foldl max a

/-- Python `min` over a list of rationals. -/
def qlistMin : List ℚ → ℚ
  | [] => 0
  | a :: rest => rest.foldl min a

/-- Python `statistics.mean` (guarded non-empty at every call site). -/
def qlistMean (l : List ℚ) : ℚ := l.sum / (l.length : ℚ)

/-- Key presence test `k in msg["data"]`. -/
def hasKey (data : List (String × PyVal)) (k : String) : Bool :=
  (data.lookup k).isSome

/-- Numeric value of a scalar field. The decoder contract makes the
fields used for statistics numeric scalars; a non-numeric value here
would raise a `TypeError` in the Python arithmetic and is outside the
contract, so it is mapped to 0. -/
def numQ : PyVal → ℚ
  | .intV n => (n : ℚ)
  | .floatV q => q
  | _ => 0

/-- `msg["data"].get(k, dflt)` followed by numeric use. -/
def getNum (data : List (String × PyVal)) (k : String) (dflt : ℚ) : ℚ :=
  match data.lookup k with
  | some v => numQ v
  | none => dflt

/-- One computed flight statistic (`statistic_type`, `value`, `unit`). -/
structure StatData where
  statistic_type : String
  value : ℚ
  unit : Option String

/-- Altitude block of `_compute_flight_statistics`. -/
def altStatsOf (messages : List Msg) : List StatData :=
  match (groupMsgs messages).lookup "GLOBAL_POSITION_INT" with
  | none => []
  | some gpsMsgs =>
      let altitudes := (gpsMsgs.filter fun m => hasKey m.data "relative_alt").map
        fun m => getNum m.data "relative_alt" 0 / 1000
      if altitudes.isEmpty then []
      else
        [⟨"max_altitude", qlistMax altitudes, some "meters"⟩,
         ⟨"min_altitude", qlistMin altitudes, some "meters"⟩,
         ⟨"avg_altitude", qlistMean altitudes, some "meters"⟩]

/-- Flight-duration block of `_compute_flight_statistics`. -/
def durStatsOf (messages : List Msg) : List StatData :=
  if messages.isEmpty then []
  else
    [⟨"flight_duration",
      (messages.getLastD dMsg).timestamp - (messages.headD dMsg).timestamp,
      some "seconds"⟩]

/-- Speed block of `_compute_flight_statistics`. -/
def speedStatsOf (messages : List Msg) : List StatData :=
  match (groupMsgs messages).lookup "VFR_HUD" with
  | none => []
  | some vfrMsgs =>
      let speeds := (vfrMsgs.filter fun m => hasKey m.data "groundspeed").map
        fun m => getNum m.data "groundspeed" 0
      if speeds.isEmpty then []
      else
        [⟨"max_speed", qlistMax speeds, some "m/s"⟩,
         ⟨"avg_speed", qlistMean speeds, some "m/s"⟩]

/-- Distance block of `_compute_flight_statistics`. -/
def distStatsOf (sq : ℚ → ℚ) (messages : List Msg) : List StatData :=
  match (groupMsgs messages).lookup "GLOBAL_POSITION_INT" with
  | none => []
  | some gpsMsgs =>
      if 2 ≤ gpsMsgs.length then
        if ["lat", "lon"].all (fun k =>
            hasKey (gpsMsgs.headD dMsg).data k && hasKey (gpsMsgs.getLastD dMsg).data k) then
          let latDiff :=
            (getNum (gpsMsgs.getLastD dMsg).data "lat" 0
              - getNum (gpsMsgs.headD dMsg).data "lat" 0) / 10000000
          let lonDiff :=
            (getNum (gpsMsgs.getLastD dMsg).data "lon" 0
              - getNum (gpsMsgs.headD dMsg).data "lon" 0) / 10000000
          [⟨"total_distance", sq (latDiff ^ 2 + lonDiff ^ 2) * 111000, some "meters"⟩]
        else []
      else []

/-- `_compute_flight_statistics`: the four blocks appended in program
order. Python computes the distance with
`(lat_diff**2 + lon_diff**2)**0.5`; the float square root is modelled
by the parameter `sq`, which none of the claims depend on. -/
def computeFlightStatistics (sq : ℚ → ℚ) (messages : List Msg) : List StatData :=
  altStatsOf messages ++ durStatsOf messages ++ speedStatsOf messages
    ++ distStatsOf sq messages

/-- `FlightPhase` dataclass; `key_events` and `summary_stats` are always
empty in the phases the code constructs. -/
structure FlightPhase where
  phase_name : String
  start_time : ℚ
  end_time : ℚ
  key_events : List (List (String × PyVal))
  summary_stats : List (String × PyVal)

/-- Placeholder phase used for default-valued list access. -/
def dPhase : FlightPhase := ⟨"", 0, 0, [], []⟩

/-- Timestamp of `messages[i]` (every use is in range). -/
def tsAt (msgs : List Msg) (i : Nat) : ℚ := (msgs.getD i dMsg).timestamp

/-- `f"mode_{msg['data'].get('mode', 'unknown')}"`. -/
def modeName (m : Msg) : String :=
  "mode_" ++ (match m.data.lookup "mode" with
              | some v => pyStr v
              | none => "unknown")

/-- Loop of `_identify_flight_phases` over the remaining records
(enumerated from `i`), with `cur` the open phase name and its
`phase_start` index; the base case is the trailing
`if current_phase is not None and messages:` block. The Python appends
phases to a list; this emits them in the same order. -/
def phasesAux (msgs : List Msg) : List Msg → Nat → Option (String × Nat) → List FlightPhase
  | [], _, cur =>
      match cur with
      | some (c, ps) =>
          if msgs.isEmpty then []
          else [⟨c, tsAt msgs ps, (msgs.getLastD dMsg).timestamp, [], []⟩]
      | none => []
  | m :: rest, i, cur =>
      if m.message_type = "MODE" then
        match cur with
        | some (c, ps) =>
            ⟨c, tsAt msgs ps, m.timestamp, [], []⟩ ::
              phasesAux msgs rest (i + 1) (some (modeName m, i))
        | none => phasesAux msgs rest (i + 1) (some (modeName m, i))
      else phasesAux msgs rest (i + 1) cur

/-- `_identify_flight_phases`. -/
def identifyFlightPhases (msgs : List Msg) : List FlightPhase :=
  phasesAux msgs msgs 0 none

/-- `MessageSummary` dataclass. -/
structure MessageSummary where
  message_type : String
  count : Nat
  time_range : ℚ × ℚ
  sample_rate : ℚ
  key_fields : List (String × PyVal)
  statistical_summary : List (String × ℚ)

/-- `_create_message_summaries`: one summary per message type; the
`stored_stats` argument is accepted and never used (as in the code),
and `sample_rate` is left at `1.0`. -/
def createMessageSummaries (messages : List Msg)
    (storedStats : Nat × Nat × Nat × Nat) : List MessageSummary :=
  (groupMsgs messages).map fun p =>
    let timestamps := p.2.map (·.timestamp)
    { message_type := p.1
      count := p.2.length
      time_range := (qlistMin timestamps, qlistMax timestamps)
      sample_rate := 1
      key_fields := []
      statistical_summary := [] }

/-- A `log_metadata` row (the columns `get_intelligent_summary`
selects). -/
structure LogMeta where
  filename : String
  upload_time : String
  vehicle_type : Option String

/-- A `smart_telemetry` row. -/
structure TelemetryRow where
  log_id : Int
  message_type : String
  timestamp : ℚ
  data : List (String × PyVal)
  storage_strategy : String
  sampling_index : Nat
  phase_tags : List String

/-- A `flight_statistics` row. -/
structure StatRow where
  log_id : Int
  statistic_type : String
  value : ℚ
  unit : Option String

/-- A `flight_phases` row. -/
structure PhaseRow where
  log_id : Int
  phase_name : String
  start_time : ℚ
  end_time : ℚ
  key_events : List (List (String × PyVal))
  summary_stats : List (String × PyVal)

/-- A `message_summaries` row. -/
structure SummaryRow where
  log_id : Int
  message_type : String
  total_count : Nat
  stored_count : Nat
  sample_rate : ℚ
  time_range_start : ℚ
  time_range_end : ℚ

/-- The database state visible to the storage layer. `chat_sessions`
maps a session id to its nullable `file_id` (stored as a varchar
holding an integer id; Python truthiness later folds null, `0` and the
empty string into the same "no data" case, modelled by `Option Int`
with `0` the falsy non-null value). `poolInit` models whether
`self._connection_pool` is set. -/
structure DB where
  poolInit : Bool
  chat_sessions : List (String × Option Int)
  log_metadata : List (Int × LogMeta)
  smart_telemetry : List TelemetryRow
  flight_statistics : List StatRow
  flight_phases : List PhaseRow
  message_summaries : List SummaryRow

/-- One `INSERT` issued inside the ingestion transaction. -/
inductive Write where
  | tele (r : TelemetryRow)
  | stat (r : StatRow)
  | phase (r : PhaseRow)
  | summ (r : SummaryRow)

/-- Apply one insert to the database state. -/
def applyWrite (w : Write) (db : DB) : DB :=
  match w with
  | .tele r => { db with smart_telemetry := db.smart_telemetry ++ [r] }
  | .stat r => { db with flight_statistics := db.flight_statistics ++ [r] }
  | .phase r => { db with flight_phases := db.flight_phases ++ [r] }
  | .summ r => { db with message_summaries := db.message_summaries ++ [r] }

/-- Run the transaction body: issue the inserts in order, numbered from
`n`; `failAt = some k` injects a store failure (a raised exception) at
the `k`-th insert. -/
def runInserts (failAt : Option Nat) : List Write → DB × Nat → Except String (DB × Nat)
  | [], st => .ok st
  | w :: rest, (db, n) =>
      if failAt = some n then .error "insert failed"
      else runInserts failAt rest (applyWrite w db, n + 1)

/-- The `smart_telemetry` row `_store_with_strategy` inserts for one
selected index. -/
def stratRow (log_id : Int) (msgs : List Msg) (t : String) (strat : Strategy)
    (msg_idx : Nat) : TelemetryRow :=
  let msg := msgs.getD msg_idx dMsg
  { log_id := log_id
    message_type := t
    timestamp := msg.timestamp
    data := makeJsonSafe msg.data
    storage_strategy := strat.toStr
    sampling_index := msg_idx
    phase_tags := determinePhaseTags msg msg_idx msgs.length }

/-- All tier-writer inserts of `_store_with_strategy`, in plan order. -/
def planWrites (log_id : Int) (msgs : List Msg)
    (plan : List (String × PlanEntry)) : List Write :=
  (plan.map fun p => p.2.indices.map fun idx =>
    Write.tele (stratRow log_id msgs p.1 p.2.strategy idx)).join

/-- The per-strategy counters maintained by `_store_with_strategy`
(critical, sampled, full). -/
def stratCounts (plan : List (String × PlanEntry)) : Nat × Nat × Nat :=
  plan.foldl
    (fun acc p =>
      match p.2.strategy with
      | .critical => (acc.1 + p.2.indices.length, acc.2.1, acc.2.2)
      | .sampled => (acc.1, acc.2.1 + p.2.indices.length, acc.2.2)
      | .full => (acc.1, acc.2.1, acc.2.2 + p.2.indices.length))
    (0, 0, 0)

/-- Inserts of `_store_flight_statistics`. -/
def statWrites (log_id : Int) (stats : List StatData) : List Write :=
  stats.map fun s => Write.stat ⟨log_id, s.statistic_type, s.value, s.unit⟩

/-- Inserts of `_store_flight_phases`. -/
def phaseWrites (log_id : Int) (phases : List FlightPhase) : List Write :=
  phases.map fun p =>
    Write.phase ⟨log_id, p.phase_name, p.start_time, p.end_time, p.key_events, p.summary_stats⟩

/-- Inserts of `_store_message_summaries`: note the code binds both
`total_count` and `stored_count` to `summary.count`. -/
def summWrites (log_id : Int) (summaries : List MessageSummary) : List Write :=
  summaries.map fun s =>
    Write.summ ⟨log_id, s.message_type, s.count, s.count, s.sample_rate,
                s.time_range.1, s.time_range.2⟩

/-- The value `store_telemetry_intelligently` returns (a Python dict:
either the early `status: error` dict for empty input, or the success
dict). -/
inductive IngestResult where
  | errorResult (message : String)
  | success (total_messages stored_critical stored_sampled stored_full : Nat)
      (storage_efficiency : ℚ) (flight_phases computed_statistics : Nat)
deriving DecidableEq, Repr

/-- The `stored_stats` dict passed on to `_create_message_summaries`
(critical, sampled, full, total stored). -/
def stratCounts4 (plan : List (String × PlanEntry)) : Nat × Nat × Nat × Nat :=
  ((stratCounts plan).1, (stratCounts plan).2.1, (stratCounts plan).2.2,
   (stratCounts plan).1 + (stratCounts plan).2.1 + (stratCounts plan).2.2)

/-- Every insert issued inside the ingestion transaction of
`store_telemetry_intelligently`, in program order: tier-writer rows,
then flight statistics, then flight phases, then message summaries. -/
def ingestWrites (sq : ℚ → ℚ) (log_id : Int) (messages : List Msg) : List Write :=
  planWrites log_id messages (analyzeMessages messages)
    ++ statWrites log_id (computeFlightStatistics sq messages)
    ++ phaseWrites log_id (identifyFlightPhases messages)
    ++ summWrites log_id
        (createMessageSummaries messages (stratCounts4 (analyzeMessages messages)))

/-- The success dict `store_telemetry_intelligently` returns. -/
def ingestSuccess (sq : ℚ → ℚ) (messages : List Msg) : IngestResult :=
  .success messages.length
    (stratCounts (analyzeMessages messages)).1
    (stratCounts (analyzeMessages messages)).2.1
    (stratCounts (analyzeMessages messages)).2.2
    (((stratCounts4 (analyzeMessages messages)).2.2.2 : ℚ) / (messages.length : ℚ))
    (identifyFlightPhases messages).length
    (computeFlightStatistics sq messages).length

/-- `store_telemetry_intelligently`: everything runs inside one
`conn.transaction()` block, so an injected insert failure rolls the
state back to `db` and surfaces as an error. -/
def storeTelemetryIntelligently (sq : ℚ → ℚ) (failAt : Option Nat) (log_id : Int)
    (messages : List Msg) (db : DB) : DB × Except String IngestResult :=
  if messages.isEmpty then (db, .ok (.errorResult "No messages to process"))
  else
    match runInserts failAt (ingestWrites sq log_id messages) (db, 0) with
    | .ok (db', _) => (db', .ok (ingestSuccess sq messages))
    | .error e => (db, .error e)

/-- Python format specs used by the digest f-strings (`:.2f`, `:,`,
`:.1%`, `:.1f`): the claims never inspect the rendered numbers, so the
renderers are parameters. -/
structure Fmt where
  f2 : ℚ → String
  comma : Nat → String
  pct1 : ℚ → String
  f1 : ℚ → String

/-- Degenerate renderers used for concrete evaluation. -/
def trivialFmt : Fmt := ⟨fun _ => "", fun _ => "", fun _ => "", fun _ => ""⟩

/-- Python `str.title()`: a letter is uppercased when the previous
character is not a letter, lowercased otherwise. -/
def titleCase (s : String) : String :=
  String.mk (s.data.foldl
    (fun (acc : List Char × Bool) c =>
      (acc.1 ++ [if acc.2 then c.toLower else c.toUpper], c.isAlpha))
    ([], false)).1

/-- Stable insertion used to model an `ORDER BY` clause. -/
def insertSorted {α : Type} (le : α → α → Bool) (a : α) : List α → List α
  | [] => [a]
  | b :: rest => if le a b then a :: b :: rest else b :: insertSorted le a rest

/-- Sort used to model an `ORDER BY` clause. -/
def sortRows {α : Type} (le : α → α → Bool) : List α → List α
  | [] => []
  | a :: rest => insertSorted le a (sortRows le rest)

/-- `f"{x or 'Unknown'}"` on the nullable `vehicle_type` column
(Python truthiness: both null and the empty string fall back). -/
def orUnknown : Option String → String
  | none => "Unknown"
  | some s => if s = "" then "Unknown" else s

/-- The session-to-file resolution shared by `get_intelligent_summary`
and `query_specific_data`:
`if not session_row or not session_row['file_id']` returns the
"no data" result, so a missing row, a null `file_id` and a falsy
`file_id` (0, modelling falsy values) all come out as `none`. -/
def sessionFileId (db : DB) (sid : String) : Option Int :=
  match db.chat_sessions.lookup sid with
  | none => none
  | some none => none
  | some (some fid) => if fid = 0 then none else some fid

/-- `f" {stat['unit']}" if stat['unit'] else ""`. -/
def unitStr : Option String → String
  | none => ""
  | some u => if u = "" then "" else " " ++ u

/-- `get_intelligent_summary`: builds the digest for a session. The
result is `Except`: `.error` models an uncaught Python exception (the
code subscripts the `log_metadata` fetch result without a null check,
and divides by the summed `total_count`); `.ok none` is the "no data"
return; `.ok (some s)` the digest. The row fetches are pure reads, so
performing them before the error point (as written here) is
behaviour-equivalent to the Python, which fetches everything first and
only then builds the digest. -/
def getIntelligentSummary (F : Fmt) (db : DB) (session_id : String) :
    Except String (Option String) :=
  if ¬ db.poolInit then .ok none
  else
    match sessionFileId db session_id with
    | none => .ok none
    | some file_id =>
      let logRow? := db.log_metadata.lookup file_id
      let statsRows := sortRows (fun a b => decide (a.statistic_type ≤ b.statistic_type))
        (db.flight_statistics.filter fun r => decide (r.log_id = file_id))
      let summaryRows := (sortRows (fun a b => decide (b.total_count ≤ a.total_count))
        (db.message_summaries.filter fun r => decide (r.log_id = file_id))).take 15
      let phaseRows := sortRows (fun a b => decide (a.start_time ≤ b.start_time))
        (db.flight_phases.filter fun r => decide (r.log_id = file_id))
      match logRow? with
      | none => .error "TypeError: NoneType object is not subscriptable"
      | some logRow =>
        let header :=
          ["=== COMPREHENSIVE FLIGHT LOG ANALYSIS ===",
           "File: " ++ logRow.filename,
           "Vehicle: " ++ orUnknown logRow.vehicle_type,
           ""]
        let statsSection :=
          if statsRows.isEmpty then []
          else
            "=== KEY FLIGHT STATISTICS ===" ::
            statsRows.map (fun st =>
              "• " ++ titleCase (st.statistic_type.replace "_" " ") ++ ": "
                ++ F.f2 st.value ++ unitStr st.unit) ++ [""]
        let msgSection : Except String (List String) :=
          if summaryRows.isEmpty then .ok []
          else
            let totalOriginal := (summaryRows.map (·.total_count)).sum
            let totalStored := (summaryRows.map (·.stored_count)).sum
            if totalOriginal = 0 then .error "ZeroDivisionError: division by zero"
            else
              .ok ("=== MESSAGE ANALYSIS ===" ::
                ("Total Messages: " ++ F.comma totalOriginal ++ " (Stored: "
                  ++ F.comma totalStored ++ ", Efficiency: "
                  ++ F.pct1 ((totalStored : ℚ) / (totalOriginal : ℚ)) ++ ")") ::
                "Top Message Types:" ::
                (summaryRows.take 8).map (fun row =>
                  let efficiency :=
                    if row.stored_count ≠ row.total_count then
                      "(" ++ toString row.stored_count ++ "/" ++ toString row.total_count ++ ")"
                    else ""
                  "  • " ++ row.message_type ++ ": " ++ F.comma row.total_count
                    ++ " messages " ++ efficiency) ++ [""])
        let phaseSection :=
          if phaseRows.isEmpty then []
          else
            "=== FLIGHT PHASES ===" ::
            phaseRows.map (fun p =>
              "• " ++ p.phase_name ++ ": " ++ F.f1 (p.end_time - p.start_time) ++ "s") ++ [""]
        let tail :=
          ["=== ANALYSIS CAPABILITIES ===",
           "Available for detailed analysis:",
           "• All critical events and state changes stored",
           "• High-frequency data intelligently sampled",
           "• Flight statistics pre-computed",
           "• Temporal phase analysis available",
           "• Can retrieve specific data on demand"]
        match msgSection with
        | .error e => .error e
        | .ok msgLines =>
            .ok (some (String.intercalate "\n"
              (header ++ statsSection ++ msgLines ++ phaseSection ++ tail)))

/-- Newest-first ordering (`ORDER BY timestamp DESC`). -/
def tsDesc (a b : TelemetryRow) : Bool := decide (b.timestamp ≤ a.timestamp)

/-- `query_specific_data`. SQL comparison with a null parameter matches
no row, so an absent `message_type`/`phase` keyword argument yields an
empty filter. The Python converts each row to a dict of selected
columns; the rows themselves are returned here, which preserves
emptiness and cardinality. -/
def querySpecificData (db : DB) (session_id : String) (query_type : String)
    (limit : Option Nat) (message_type : Option String) (phase : Option String) :
    List TelemetryRow :=
  if ¬ db.poolInit then []
  else
    match sessionFileId db session_id with
    | none => []
    | some log_id =>
      if query_type = "critical_events" then
        (sortRows tsDesc (db.smart_telemetry.filter fun r =>
          decide (r.log_id = log_id) && decide (r.storage_strategy = "critical"))).take
          (limit.getD 50)
      else if query_type = "message_type" then
        (sortRows tsDesc (db.smart_telemetry.filter fun r =>
          decide (r.log_id = log_id) && decide (some r.message_type = message_type))).take
          (limit.getD 100)
      else if query_type = "phase" then
        (sortRows tsDesc (db.smart_telemetry.filter fun r =>
          decide (r.log_id = log_id) &&
            (match phase with
             | some p => decide (p ∈ r.phase_tags)
             | none => false))).take (limit.getD 100)
      else
        (sortRows tsDesc (db.smart_telemetry.filter fun r =>
          decide (r.log_id = log_id))).take (limit.getD 20)

/-- No row of any of the four ingestion row sets carries this log id. -/
def noRowsFor (db : DB) (log_id : Int) : Bool :=
  db.smart_telemetry.all (fun r => r.log_id != log_id) &&
  db.flight_statistics.all (fun r => r.log_id != log_id) &&
  db.flight_phases.all (fun r => r.log_id != log_id) &&
  db.message_summaries.all (fun r => r.log_id != log_id)

/-- Decoder guarantee (spec section 6): timestamps are monotonically
non-decreasing along the record sequence. -/
def tsSorted (msgs : List Msg) : Prop :=
  msgs.Chain' fun a b => a.timestamp ≤ b.timestamp

/-- The records of type `GLOBAL_POSITION_INT` in stream order. -/
def gpsOf (messages : List Msg) : List Msg :=
  messages.filter fun m => m.message_type == "GLOBAL_POSITION_INT"

/-- Concrete ingestion input: 20 `ATTITUDE` records at timestamps
`0, 1, …, 19`. -/
def attMsgs : List Msg :=
  (List.range 20).map fun i => ⟨"ATTITUDE", (i : ℚ), []⟩

/-- Concrete ingestion input with two `MODE` records around an
`ATTITUDE` record. -/
def msgsCritEx : List Msg :=
  [⟨"MODE", 0, [("mode", .strV "GUIDED")]⟩,
   ⟨"ATTITUDE", 1, [("roll", .floatV 1)]⟩,
   ⟨"MODE", 2, [("mode", .strV "LAND")]⟩]

/-- Concrete input with exactly one `GLOBAL_POSITION_INT` record that
carries `relative_alt`, `lat` and `lon`. -/
def msgsOneGps : List Msg :=
  [⟨"HEARTBEAT", 0, []⟩,
   ⟨"GLOBAL_POSITION_INT", 1,
     [("relative_alt", .intV 5000), ("lat", .intV 473977420), ("lon", .intV 85455940)]⟩]

/-- An empty database with an initialized pool. -/
def dbEmpty : DB := ⟨true, [], [], [], [], [], []⟩

/-- A database whose session `s` is linked to log 1, which exists in
`log_metadata` but has no rows in any ingestion row set. -/
def dbNoTele : DB :=
  { poolInit := true
    chat_sessions := [("s", some 1)]
    log_metadata := [(1, ⟨"flight.bin", "2024-01-01", none⟩)]
    smart_telemetry := []
    flight_statistics := []
    flight_phases := []
    message_summaries := [] }

/-- A database whose session `s` carries `file_id = 2` although no
`log_metadata` row with id 2 exists (`chat_sessions.file_id` is a plain
varchar column with no foreign key, so this state is reachable). -/
def dbDangling : DB :=
  { poolInit := true
    chat_sessions := [("s", some 2)]
    log_metadata := []
    smart_telemetry := []
    flight_statistics := []
    flight_phases := []
    message_summaries := [] }

/-! ## Lemmas about stride sampling -/

theorem takeEveryAux_drop {α : Type} (step : Nat) :
    ∀ (l : List α) (c : Nat), takeEveryAux step c l = takeEveryAux step 0 (l.drop c) := by
  intro l
  induction l with
  | nil => intro c; simp [takeEveryAux]
  | cons a rest ih =>
      intro c
      cases c with
      | zero => rfl
      | succ c => rw [List.drop_succ_cons, takeEveryAux, ih c]

theorem takeEvery_nil {α : Type} (step : Nat) : takeEvery step ([] : List α) = [] := rfl

theorem takeEvery_cons {α : Type} (step : Nat) (a : α) (rest : List α) :
    takeEvery step (a :: rest) = a :: takeEvery step (rest.drop (step - 1)) := by
  rw [takeEvery, takeEvery, takeEveryAux, takeEveryAux_drop]

theorem takeEvery_one {α : Type} (l : List α) : takeEvery 1 l = l := by
  induction l with
  | nil => rfl
  | cons a rest ih => rw [takeEvery_cons]; simp [ih]

theorem takeEvery_length {α : Type} (step : Nat) (hs : 1 ≤ step) :
    ∀ l : List α, (takeEvery step l).length = (l.length + step - 1) / step := by
  have main : ∀ n (l : List α), l.length = n →
      (takeEvery step l).length = (l.length + step - 1) / step := by
    intro n
    induction n using Nat.strong_induction_on with
    | _ n ih =>
      intro l hl
      cases l with
      | nil => simp [takeEvery, takeEveryAux, Nat.div_eq_of_lt (show step - 1 < step by omega)]
      | cons a rest =>
        have hn : rest.length + 1 = n := by simpa using hl
        have hlt : (rest.drop (step - 1)).length < n := by
          simp only [List.length_drop]; omega
        rw [takeEvery_cons]
        simp only [List.length_cons]
        rw [ih _ hlt _ rfl]
        simp only [List.length_drop]
        have h3 : rest.length + 1 + step - 1 = rest.length + step := by omega
        rw [h3, Nat.add_div_right _ (show 0 < step by omega)]
        rcases Nat.lt_or_ge rest.length (step - 1) with hc | hc
        · have h1 : rest.length - (step - 1) + step - 1 = step - 1 := by omega
          rw [h1, Nat.div_eq_of_lt (show step - 1 < step by omega),
            Nat.div_eq_of_lt (show rest.length < step by omega)]
        · have h1 : rest.length - (step - 1) + step - 1 = rest.length := by omega
          rw [h1]
  exact fun l => main l.length l rfl

theorem takeEvery_getElem? {α : Type} (step : Nat) (hs : 1 ≤ step) :
    ∀ (l : List α) (k : Nat), (takeEvery step l)[k]? = l[k * step]? := by
  have main : ∀ n (l : List α), l.length = n → ∀ k,
      (takeEvery step l)[k]? = l[k * step]? := by
    intro n
    induction n using Nat.strong_induction_on with
    | _ n ih =>
      intro l hl k
      cases l with
      | nil => simp [takeEvery, takeEveryAux]
      | cons a rest =>
        rw [takeEvery_cons]
        cases k with
        | zero => simp
        | succ k =>
          have hn : rest.length + 1 = n := by simpa using hl
          have hlt : (rest.drop (step - 1)).length < n := by
            simp only [List.length_drop]; omega
          simp only [List.getElem?_cons_succ]
          rw [ih _ hlt _ rfl k, List.getElem?_drop]
          have hidx : (k + 1) * step = (step - 1 + k * step) + 1 := by
            rw [Nat.add_mul, Nat.one_mul]
            omega
          rw [hidx, List.getElem?_cons_succ]
  exact fun l k => main l.length l rfl k

/-- The code computes the stride as
`max(1, count // sample_rate) if count > sample_rate else 1`, which
always coincides with the spec form `max 1 (count / T)`. -/
theorem stride_if_eq (count T : Nat) :
    (if count > T then max 1 (count / T) else 1) = max 1 (count / T) := by
  by_cases h : count > T
  · rw [if_pos h]
  · rw [if_neg h]
    have hle : count ≤ T := Nat.le_of_not_lt h
    have hdiv : count / T ≤ 1 := by
      rcases Nat.eq_zero_or_pos T with hT | hT
      · subst hT
        simp [Nat.div_zero]
      · have h1 : count / T ≤ T / T := Nat.div_le_div_right hle
        have h2 : T / T = 1 := Nat.div_self hT
        omega
    exact (max_eq_left hdiv).symm

/-- Closed form of `planFor` on a high-frequency type. -/
theorem planFor_hf (t : String) (indices : List Nat) (T : Nat)
    (hc : t ∉ criticalMessages) (hhf : hfSampleRate t = some T) :
    planFor t indices =
      ⟨.sampled, takeEvery (max 1 (indices.length / T)) indices,
       some indices.length,
       some (takeEvery (max 1 (indices.length / T)) indices).length⟩ := by
  unfold planFor
  rw [if_neg hc, hhf]
  simp only [stride_if_eq]

/-- Closed form of `planFor` on a bulk-sampled type. -/
theorem planFor_bulk (t : String) (indices : List Nat)
    (hc : t ∉ criticalMessages) (hhf : hfSampleRate t = none)
    (hbig : 100 ≤ indices.length) :
    planFor t indices =
      ⟨.sampled, takeEvery (max 1 (indices.length / 50)) indices,
       some indices.length,
       some (takeEvery (max 1 (indices.length / 50)) indices).length⟩ := by
  unfold planFor
  rw [if_neg hc, hhf]
  simp only [if_neg (show ¬ indices.length < 100 by omega)]

/-- C3: for every message type classified `Sampled` (high-frequency
table, target `T`) or `BulkSampled` (the bulk branch, target 50) with
per-type index list `indices` of length `N`, the stride is
`max 1 (N / T)`, the number of selected indices equals
`ceil (N / stride)`, and the selected entries are exactly the entries of
the ordered per-type index list at positions `0, stride, 2·stride, …`
below `N`. -/
theorem sampled_stride_selection (t : String) (indices : List Nat) (T : Nat)
    (h : (t ∉ criticalMessages ∧ hfSampleRate t = some T) ∨
         (t ∉ criticalMessages ∧ hfSampleRate t = none ∧ 100 ≤ indices.length ∧ T = 50)) :
    (planFor t indices).strategy = .sampled ∧
    (planFor t indices).indices.length
      = (indices.length + max 1 (indices.length / T) - 1) / max 1 (indices.length / T) ∧
    ∀ k : Nat, (planFor t indices).indices[k]? = indices[k * max 1 (indices.length / T)]? := by
  have hs : 1 ≤ max 1 (indices.length / T) := le_max_left _ _
  rcases h with ⟨hc, hhf⟩ | ⟨hc, hhf, hbig, hT⟩
  · rw [planFor_hf t indices T hc hhf]
    exact ⟨rfl, takeEvery_length _ hs indices, fun k => takeEvery_getElem? _ hs indices k⟩
  · subst hT
    rw [planFor_bulk t indices hc hhf hbig]
    exact ⟨rfl, takeEvery_length _ hs indices, fun k => takeEvery_getElem? _ hs indices k⟩

/-- Witness for C3: 25 indices of the high-frequency type `ATTITUDE`
(target 10) give stride 2 and 13 selected indices, and the selected
entry at position 1 is the original entry at position 2. -/
theorem sampled_stride_selection_witness :
    (planFor "ATTITUDE" (List.range 25)).strategy = .sampled ∧
    (planFor "ATTITUDE" (List.range 25)).indices.length = 13 ∧
    (planFor "ATTITUDE" (List.range 25)).indices[1]? = some 2 := by
  have h := sampled_stride_selection "ATTITUDE" (List.range 25) 10
    (Or.inl ⟨by decide, by decide⟩)
  refine ⟨h.1, ?_, ?_⟩
  · rw [h.2.1]; decide
  · rw [h.2.2 1]; decide

/-- C10: a high-frequency type whose count is at most its target sample
count gets stride 1: it is tiered `sampled` but every index is kept. -/
theorem hf_small_sample_keeps_all (t : String) (indices : List Nat) (T : Nat)
    (hcrit : t ∉ criticalMessages) (hhf : hfSampleRate t = some T)
    (hcount : indices.length ≤ T) :
    planFor t indices = ⟨.sampled, indices, some indices.length, some indices.length⟩ := by
  unfold planFor
  rw [if_neg hcrit, hhf]
  simp only [if_neg (show ¬ indices.length > T by omega), takeEvery_one]

/-- Witness for C10: 4 indices of `GLOBAL_POSITION_INT` (target 5):
all four survive sampling. -/
theorem hf_small_sample_keeps_all_witness :
    planFor "GLOBAL_POSITION_INT" [3, 8, 9, 20] =
      ⟨.sampled, [3, 8, 9, 20], some 4, some 4⟩ :=
  hf_small_sample_keeps_all "GLOBAL_POSITION_INT" [3, 8, 9, 20] 5
    (by decide) (by decide) (by decide)

/-- C6: for `N ≥ 1` and `index < N`, the progress `p = index / N` lies
in `[0, 1)` and the assigned progress tag is the one of
startup/preflight/flight/landing/shutdown whose half-open band contains
`p`; the five bands are pairwise disjoint and cover `[0, 1)`, so exactly
one tag is assigned. -/
theorem progress_bands (index total : Nat) (htotal : 1 ≤ total) (hindex : index < total) :
    0 ≤ (index : ℚ) / (total : ℚ) ∧ (index : ℚ) / (total : ℚ) < 1 ∧
    ((progressTag index total = "startup" ∧
        (index : ℚ) / (total : ℚ) < 1/10) ∨
     (progressTag index total = "preflight" ∧
        1/10 ≤ (index : ℚ) / (total : ℚ) ∧ (index : ℚ) / (total : ℚ) < 1/5) ∨
     (progressTag index total = "flight" ∧
        1/5 ≤ (index : ℚ) / (total : ℚ) ∧ (index : ℚ) / (total : ℚ) < 4/5) ∨
     (progressTag index total = "landing" ∧
        4/5 ≤ (index : ℚ) / (total : ℚ) ∧ (index : ℚ) / (total : ℚ) < 19/20) ∨
     (progressTag index total = "shutdown" ∧
        19/20 ≤ (index : ℚ) / (total : ℚ) ∧ (index : ℚ) / (total : ℚ) < 1)) := by
  have htpos : (0 : ℚ) < (total : ℚ) := by exact_mod_cast htotal
  have h0 : 0 ≤ (index : ℚ) / (total : ℚ) :=
    div_nonneg (by positivity) (le_of_lt htpos)
  have h1 : (index : ℚ) / (total : ℚ) < 1 := by
    rw [div_lt_one htpos]
    exact_mod_cast hindex
  refine ⟨h0, h1, ?_⟩
  unfold progressTag
  by_cases c1 : (index : ℚ) / (total : ℚ) < 1/10
  · exact Or.inl ⟨by rw [if_pos c1], c1⟩
  · by_cases c2 : (index : ℚ) / (total : ℚ) < 1/5
    · exact Or.inr (Or.inl ⟨by rw [if_neg c1, if_pos c2], le_of_not_lt c1, c2⟩)
    · by_cases c3 : (index : ℚ) / (total : ℚ) < 4/5
      · exact Or.inr (Or.inr (Or.inl
          ⟨by rw [if_neg c1, if_neg c2, if_pos c3], le_of_not_lt c2, c3⟩))
      · by_cases c4 : (index : ℚ) / (total : ℚ) < 19/20
        · exact Or.inr (Or.inr (Or.inr (Or.inl
            ⟨by rw [if_neg c1, if_neg c2, if_neg c3, if_pos c4], le_of_not_lt c3, c4⟩)))
        · exact Or.inr (Or.inr (Or.inr (Or.inr
            ⟨by rw [if_neg c1, if_neg c2, if_neg c3, if_neg c4], le_of_not_lt c4, h1⟩)))

/-! ## Lemmas about the insertion-ordered grouping dictionaries -/

theorem lookup_insertApp {β : Type} (acc : List (String × List β)) (t t' : String) (x : β) :
    (insertApp acc t x).lookup t' =
      if t' = t then some ((acc.lookup t').getD [] ++ [x]) else acc.lookup t' := by
  induction acc with
  | nil =>
      by_cases h : t' = t
      · subst h
        simp [insertApp, List.lookup]
      · simp [insertApp, List.lookup, (by simp [h] : (t' == t) = false), h]
  | cons p rest ih =>
      obtain ⟨k, xs⟩ := p
      simp only [insertApp]
      by_cases hk : k = t
      · rw [if_pos hk]
        by_cases h : t' = k
        · subst h
          subst hk
          simp [List.lookup]
        · have hne : ¬ t' = t := fun hc => h (hc.trans hk.symm)
          simp [List.lookup, (by simp [h] : (t' == k) = false), hne]
      · rw [if_neg hk]
        by_cases h : t' = k
        · have hne : ¬ t' = t := fun hc => hk (h.symm.trans hc)
          simp [List.lookup, (by simp [h] : (t' == k) = true), hne]
        · simp only [List.lookup, (by simp [h] : (t' == k) = false)]
          exact ih

theorem groupIdxAux_lookup (t : String) :
    ∀ (rem : List Msg) (i : Nat) (acc : List (String × List Nat)),
      (groupIdxAux i rem acc).lookup t =
        if posFrom i t rem = [] then acc.lookup t
        else some ((acc.lookup t).getD [] ++ posFrom i t rem) := by
  intro rem
  induction rem with
  | nil => intro i acc; simp [groupIdxAux, posFrom]
  | cons m rest ih =>
      intro i acc
      by_cases hm : m.message_type = t
      · have hial : (insertIdx acc m.message_type i).lookup t =
            some ((acc.lookup t).getD [] ++ [i]) := by
          rw [insertIdx, lookup_insertApp, if_pos hm.symm]
        simp only [groupIdxAux, posFrom, if_pos hm]
        rw [ih (i + 1) (insertIdx acc m.message_type i), hial]
        by_cases hps : posFrom (i + 1) t rest = []
        · simp [hps]
        · simp [hps]
      · have hial : (insertIdx acc m.message_type i).lookup t = acc.lookup t := by
          rw [insertIdx, lookup_insertApp, if_neg (fun hc => hm hc.symm)]
        simp only [groupIdxAux, posFrom, if_neg hm]
        rw [ih (i + 1) (insertIdx acc m.message_type i), hial]

theorem groupIndices_lookup (msgs : List Msg) (t : String) :
    (groupIndices msgs).lookup t =
      if posFrom 0 t msgs = [] then none else some (posFrom 0 t msgs) := by
  rw [groupIndices, groupIdxAux_lookup]
  rfl

theorem groupMsgsAux_lookup (t : String) :
    ∀ (rem : List Msg) (acc : List (String × List Msg)),
      (groupMsgsAux rem acc).lookup t =
        if (rem.filter fun m => m.message_type == t).isEmpty then acc.lookup t
        else some ((acc.lookup t).getD [] ++ rem.filter fun m => m.message_type == t) := by
  intro rem
  induction rem with
  | nil => intro acc; simp [groupMsgsAux]
  | cons m rest ih =>
      intro acc
      by_cases hm : m.message_type = t
      · have hial : (insertMsg acc m.message_type m).lookup t =
            some ((acc.lookup t).getD [] ++ [m]) := by
          rw [insertMsg, lookup_insertApp, if_pos hm.symm]
        simp only [groupMsgsAux, List.filter_cons,
          (by simp [hm] : (m.message_type == t) = true)]
        rw [ih (insertMsg acc m.message_type m), hial]
        by_cases hps : (rest.filter fun m => m.message_type == t).isEmpty
        · simp [hps, List.isEmpty_iff.mp hps]
        · simp [hps]
      · have hial : (insertMsg acc m.message_type m).lookup t = acc.lookup t := by
          rw [insertMsg, lookup_insertApp, if_neg (fun hc => hm hc.symm)]
        simp only [groupMsgsAux, List.filter_cons,
          (by simp [hm] : (m.message_type == t) = false)]
        rw [ih (insertMsg acc m.message_type m), hial]
        simp

theorem groupMsgs_lookup (msgs : List Msg) (t : String) :
    (groupMsgs msgs).lookup t =
      if (msgs.filter fun m => m.message_type == t).isEmpty then none
      else some (msgs.filter fun m => m.message_type == t) := by
  rw [groupMsgs, groupMsgsAux_lookup]
  rfl

theorem lookup_mem {β : Type} (l : List (String × β)) (t : String) (v : β)
    (h : l.lookup t = some v) : (t, v) ∈ l := by
  induction l with
  | nil => simp [List.lookup] at h
  | cons p rest ih =>
      obtain ⟨k, w⟩ := p
      by_cases hk : t == k
      · simp only [List.lookup, hk] at h
        obtain rfl : w = v := by simpa using h
        have : t = k := eq_of_beq hk
        subst this
        exact List.mem_cons_self _ _
      · simp only [List.lookup, (by simpa using hk : (t == k) = false)] at h
        exact List.mem_cons_of_mem _ (ih h)

theorem lookup_map_keyed {β γ : Type} (f : String → β → γ) (l : List (String × β)) (t : String) :
    (l.map fun p => (p.1, f p.1 p.2)).lookup t = (l.lookup t).map (f t) := by
  induction l with
  | nil => simp [List.lookup]
  | cons p rest ih =>
      obtain ⟨k, w⟩ := p
      by_cases hk : t == k
      · have : t = k := eq_of_beq hk
        subst this
        simp [List.lookup]
      · simp only [List.map, List.lookup, (by simpa using hk : (t == k) = false)]
        exact ih

theorem analyzeMessages_lookup (msgs : List Msg) (t : String) :
    (analyzeMessages msgs).lookup t = ((groupIndices msgs).lookup t).map (planFor t) := by
  rw [analyzeMessages, lookup_map_keyed]

theorem posFrom_length (t : String) :
    ∀ (rem : List Msg) (i : Nat),
      (posFrom i t rem).length = (rem.filter (fun m => m.message_type == t)).length := by
  intro rem
  induction rem with
  | nil => intro i; simp [posFrom]
  | cons m rest ih =>
      intro i
      by_cases hm : m.message_type = t
      · simp [posFrom, hm, List.filter_cons, ih (i + 1)]
      · simp [posFrom, hm, List.filter_cons,
          (by simp [hm] : (m.message_type == t) = false), ih (i + 1)]

/-- Witness for C6 at `index = 3`, `total = 10` (progress 0.3, tag
"flight"). -/
theorem progress_bands_witness : progressTag 3 10 = "flight" := by
  have h := (progress_bands 3 10 (by decide) (by decide)).2.2
  have hq : ((3 : Nat) : ℚ) / ((10 : Nat) : ℚ) = 3/10 := by norm_num
  rcases h with ⟨ht, hb⟩ | ⟨ht, _, hb⟩ | ⟨ht, _, _⟩ | ⟨ht, hb, _⟩ | ⟨ht, hb, _⟩
  · rw [hq] at hb; norm_num at hb
  · rw [hq] at hb; norm_num at hb
  · exact ht
  · rw [hq] at hb; norm_num at hb
  · rw [hq] at hb; norm_num at hb

/-- C7: every message type in the configured critical set is planned
`critical` with all of the type's indices selected, each selected index
produces one tier-writer insert, and the written message summary row
for that type has `stored_count = total_count` (equal to the type's
record count). -/
theorem critical_type_stored_fully (msgs : List Msg) (t : String) (log_id : Int)
    (st : Nat × Nat × Nat × Nat)
    (hcrit : t ∈ criticalMessages) (hpos : posFrom 0 t msgs ≠ []) :
    (analyzeMessages msgs).lookup t = some ⟨.critical, posFrom 0 t msgs, none, none⟩ ∧
    (∀ idx ∈ posFrom 0 t msgs,
        Write.tele (stratRow log_id msgs t .critical idx) ∈
          planWrites log_id msgs (analyzeMessages msgs)) ∧
    (∃ r : SummaryRow,
        Write.summ r ∈ summWrites log_id (createMessageSummaries msgs st) ∧
        r.message_type = t ∧ r.stored_count = r.total_count ∧
        r.total_count = (posFrom 0 t msgs).length) := by
  have hplanFor : planFor t (posFrom 0 t msgs) =
      ⟨.critical, posFrom 0 t msgs, none, none⟩ := by
    unfold planFor
    rw [if_pos hcrit]
  have hlookup : (analyzeMessages msgs).lookup t =
      some ⟨.critical, posFrom 0 t msgs, none, none⟩ := by
    rw [analyzeMessages_lookup, groupIndices_lookup, if_neg hpos]
    simp [hplanFor]
  refine ⟨hlookup, ?_, ?_⟩
  · intro idx hidx
    have hmem : (t, (⟨.critical, posFrom 0 t msgs, none, none⟩ : PlanEntry)) ∈
        analyzeMessages msgs := lookup_mem _ _ _ hlookup
    rw [planWrites]
    rw [List.mem_join]
    refine ⟨(posFrom 0 t msgs).map fun idx =>
      Write.tele (stratRow log_id msgs t .critical idx), ?_, ?_⟩
    · exact List.mem_map_of_mem
        (fun p => p.2.indices.map fun idx =>
          Write.tele (stratRow log_id msgs p.1 p.2.strategy idx)) hmem
    · exact List.mem_map_of_mem _ hidx
  · have hflt : ¬ (msgs.filter fun m => m.message_type == t).isEmpty = true := by
      intro hemp
      have h0 : (msgs.filter fun m => m.message_type == t).length = 0 := by
        rw [List.isEmpty_iff.mp hemp]
        rfl
      have h1 : (posFrom 0 t msgs).length = 0 := by
        rw [posFrom_length]
        exact h0
      exact hpos (List.length_eq_zero.mp h1)
    have hg : (groupMsgs msgs).lookup t = some (msgs.filter fun m => m.message_type == t) := by
      rw [groupMsgs_lookup, if_neg hflt]
    have hmemg : (t, msgs.filter fun m => m.message_type == t) ∈ groupMsgs msgs :=
      lookup_mem _ _ _ hg
    refine ⟨⟨log_id, t, (msgs.filter fun m => m.message_type == t).length,
      (msgs.filter fun m => m.message_type == t).length, 1,
      qlistMin ((msgs.filter fun m => m.message_type == t).map (·.timestamp)),
      qlistMax ((msgs.filter fun m => m.message_type == t).map (·.timestamp))⟩, ?_, rfl, rfl, ?_⟩
    · rw [summWrites, createMessageSummaries, List.map_map]
      exact List.mem_map_of_mem _ hmemg
    · rw [posFrom_length]

/-- Witness for C7 on `msgsCritEx`: the two `MODE` records at positions
0 and 2 are planned `critical` in full. -/
theorem critical_type_stored_fully_witness :
    (analyzeMessages msgsCritEx).lookup "MODE" =
      some ⟨.critical, [0, 2], none, none⟩ := by
  have h := (critical_type_stored_fully msgsCritEx "MODE" 7 (0, 0, 0, 0)
    (by decide) (by decide)).1
  rw [h]
  decide

/-! ## Lemmas about the statistics blocks -/

theorem altStatsOf_no_distance (messages : List Msg) :
    ∀ s ∈ altStatsOf messages, ¬ s.statistic_type = "total_distance" := by
  intro s hs
  unfold altStatsOf at hs
  cases hg : (groupMsgs messages).lookup "GLOBAL_POSITION_INT" with
  | none => rw [hg] at hs; simp at hs
  | some gps =>
      rw [hg] at hs
      simp only at hs
      split at hs
      · simp at hs
      · simp only [List.mem_cons, List.mem_singleton] at hs
        rcases hs with rfl | rfl | rfl | hs
        · simp
        · simp
        · simp
        · simp at hs

theorem durStatsOf_no_distance (messages : List Msg) :
    ∀ s ∈ durStatsOf messages, ¬ s.statistic_type = "total_distance" := by
  intro s hs
  unfold durStatsOf at hs
  split at hs
  · simp at hs
  · simp only [List.mem_singleton] at hs
    subst hs
    simp

theorem speedStatsOf_no_distance (messages : List Msg) :
    ∀ s ∈ speedStatsOf messages, ¬ s.statistic_type = "total_distance" := by
  intro s hs
  unfold speedStatsOf at hs
  cases hg : (groupMsgs messages).lookup "VFR_HUD" with
  | none => rw [hg] at hs; simp at hs
  | some vfr =>
      rw [hg] at hs
      simp only at hs
      split at hs
      · simp at hs
      · simp only [List.mem_cons, List.mem_singleton] at hs
        rcases hs with rfl | rfl | hs
        · simp
        · simp
        · simp at hs

theorem distStatsOf_names (sq : ℚ → ℚ) (messages : List Msg) :
    ∀ s ∈ distStatsOf sq messages, s.statistic_type = "total_distance" := by
  intro s hs
  unfold distStatsOf at hs
  cases hg : (groupMsgs messages).lookup "GLOBAL_POSITION_INT" with
  | none => rw [hg] at hs; simp at hs
  | some gps =>
      rw [hg] at hs
      simp only at hs
      split at hs
      · split at hs
        · simp only [List.mem_singleton] at hs
          subst hs
          rfl
        · simp at hs
      · simp at hs

/-- The per-type lookup for `GLOBAL_POSITION_INT` seen by the
statistics blocks, in terms of `gpsOf`. -/
theorem lookup_gps (messages : List Msg) :
    (groupMsgs messages).lookup "GLOBAL_POSITION_INT" =
      if (gpsOf messages).isEmpty then none else some (gpsOf messages) := by
  rw [groupMsgs_lookup]
  rfl

theorem distStatsOf_ne_nil_iff (sq : ℚ → ℚ) (messages : List Msg) :
    distStatsOf sq messages ≠ [] ↔
      (2 ≤ (gpsOf messages).length ∧
       (["lat", "lon"].all fun k =>
         hasKey ((gpsOf messages).headD dMsg).data k &&
         hasKey ((gpsOf messages).getLastD dMsg).data k) = true) := by
  unfold distStatsOf
  rw [lookup_gps]
  by_cases he : (gpsOf messages).isEmpty
  · rw [if_pos he]
    have h0 : (gpsOf messages).length = 0 := by
      rw [List.isEmpty_iff.mp he]
      rfl
    simp [h0]
  · rw [if_neg he]
    simp only
    by_cases h2 : 2 ≤ (gpsOf messages).length
    · rw [if_pos h2]
      by_cases hkeys : (["lat", "lon"].all fun k =>
          hasKey ((gpsOf messages).headD dMsg).data k &&
          hasKey ((gpsOf messages).getLastD dMsg).data k) = true
      · rw [if_pos hkeys]
        exact ⟨fun _ => ⟨h2, hkeys⟩, fun _ => List.cons_ne_nil _ _⟩
      · rw [if_neg hkeys]
        exact ⟨fun h => absurd rfl h, fun hc => absurd hc.2 hkeys⟩
    · rw [if_neg h2]
      simp [h2]

/-- C9: the `total_distance` statistic is emitted iff there are at
least two `GLOBAL_POSITION_INT` records and both the first and the last
of them carry `lat` and `lon`; with exactly one position fix carrying
`relative_alt` the altitude statistics are still emitted while
`total_distance` is not. -/
theorem total_distance_first_last_fix (sq : ℚ → ℚ) (messages : List Msg) :
    ((∃ s ∈ computeFlightStatistics sq messages, s.statistic_type = "total_distance") ↔
      (2 ≤ (gpsOf messages).length ∧
       (["lat", "lon"].all fun k =>
         hasKey ((gpsOf messages).headD dMsg).data k &&
         hasKey ((gpsOf messages).getLastD dMsg).data k) = true)) ∧
    ((gpsOf messages).length = 1 →
      hasKey ((gpsOf messages).headD dMsg).data "relative_alt" = true →
      (∃ s ∈ computeFlightStatistics sq messages, s.statistic_type = "max_altitude") ∧
      ¬ ∃ s ∈ computeFlightStatistics sq messages, s.statistic_type = "total_distance") := by
  have hiff : (∃ s ∈ computeFlightStatistics sq messages,
      s.statistic_type = "total_distance") ↔ distStatsOf sq messages ≠ [] := by
    constructor
    · rintro ⟨s, hs, hname⟩
      rw [computeFlightStatistics] at hs
      rcases List.mem_append.mp hs with hs' | hs'
      · rcases List.mem_append.mp hs' with hs'' | hs''
        · rcases List.mem_append.mp hs'' with h3 | h3
          · exact absurd hname (altStatsOf_no_distance messages s h3)
          · exact absurd hname (durStatsOf_no_distance messages s h3)
        · exact absurd hname (speedStatsOf_no_distance messages s hs'')
      · exact List.ne_nil_of_mem hs'
    · intro hne
      obtain ⟨s, hs⟩ := List.exists_mem_of_ne_nil _ hne
      refine ⟨s, ?_, distStatsOf_names sq messages s hs⟩
      rw [computeFlightStatistics]
      exact List.mem_append.mpr (Or.inr hs)
  refine ⟨hiff.trans (distStatsOf_ne_nil_iff sq messages), ?_⟩
  intro h1 halt
  constructor
  · obtain ⟨g, hg1⟩ := List.length_eq_one.mp h1
    have hlook : (groupMsgs messages).lookup "GLOBAL_POSITION_INT" = some [g] := by
      rw [lookup_gps, hg1]
      rfl
    have hkey : hasKey g.data "relative_alt" = true := by
      rw [hg1] at halt
      exact halt
    refine ⟨⟨"max_altitude",
      qlistMax (([g].filter fun m => hasKey m.data "relative_alt").map
        fun m => getNum m.data "relative_alt" 0 / 1000), some "meters"⟩, ?_, rfl⟩
    rw [computeFlightStatistics]
    refine List.mem_append.mpr (Or.inl (List.mem_append.mpr (Or.inl
      (List.mem_append.mpr (Or.inl ?_)))))
    unfold altStatsOf
    rw [hlook]
    simp only
    rw [if_neg ?hne]
    case hne =>
      simp [List.filter_cons, hkey]
    simp [List.filter_cons, hkey]
  · rw [hiff.trans (distStatsOf_ne_nil_iff sq messages)]
    intro hcon
    omega

/-- Witness for C9 on `msgsOneGps`: one position fix with
`relative_alt`, `lat`, `lon` yields altitude statistics but no
`total_distance`. -/
theorem total_distance_first_last_fix_witness :
    (∃ s ∈ computeFlightStatistics id msgsOneGps, s.statistic_type = "max_altitude") ∧
    ¬ ∃ s ∈ computeFlightStatistics id msgsOneGps, s.statistic_type = "total_distance" :=
  (total_distance_first_last_fix id msgsOneGps).2 (by rfl) (by rfl)

/-- C1 (code bug): on 20 `ATTITUDE` records the plan samples 10 of 20
(tier `sampled`, stride 2), yet the `message_summaries` insert binds
both `total_count` and `stored_count` to `summary.count = 20`: the
`stored_stats` argument is ignored and `stored_count` never reflects
the sampled tier, so `stored_count < total_count` fails for every
sampled type. -/
theorem message_summary_stored_equals_total_bug :
    ((analyzeMessages attMsgs).lookup "ATTITUDE").map
        (fun e => (e.strategy, e.indices.length, e.original_count)) =
      some (.sampled, 10, some 20) ∧
    (summWrites 1 (createMessageSummaries attMsgs (0, 10, 0, 10))).map
        (fun w => match w with
          | .summ r => (r.message_type, r.total_count, r.stored_count)
          | _ => ("", 0, 0)) =
      [("ATTITUDE", 20, 20)] := by
  constructor
  · decide
  · decide

/-- C4: an injected insert failure anywhere inside the ingestion
transaction rolls the database back to its pre-ingestion state, so a
log id that had no rows in the four row sets still has none. -/
theorem ingestion_atomic (sq : ℚ → ℚ) (failAt : Option Nat) (log_id : Int)
    (messages : List Msg) (db : DB) (e : String)
    (hfail : (storeTelemetryIntelligently sq failAt log_id messages db).2 = .error e) :
    (storeTelemetryIntelligently sq failAt log_id messages db).1 = db ∧
    (noRowsFor db log_id = true →
      noRowsFor (storeTelemetryIntelligently sq failAt log_id messages db).1 log_id = true) := by
  unfold storeTelemetryIntelligently at hfail ⊢
  by_cases hm : messages.isEmpty
  · rw [if_pos hm] at hfail
    simp at hfail
  · rw [if_neg hm] at hfail ⊢
    cases hr : runInserts failAt (ingestWrites sq log_id messages) (db, 0) with
    | ok p =>
        obtain ⟨db', n⟩ := p
        rw [hr] at hfail
        simp at hfail
    | error e' =>
        exact ⟨rfl, fun h => h⟩

/-- Witness for C4: one `MODE` record with the very first insert
failing leaves the empty database unchanged. -/
theorem ingestion_atomic_witness :
    (storeTelemetryIntelligently id (some 0) 5 [⟨"MODE", 0, []⟩] dbEmpty).1 = dbEmpty ∧
    noRowsFor (storeTelemetryIntelligently id (some 0) 5 [⟨"MODE", 0, []⟩] dbEmpty).1 5
      = true := by
  have h := ingestion_atomic id (some 0) 5 [⟨"MODE", 0, []⟩] dbEmpty "insert failed"
    (by rfl)
  exact ⟨h.1, h.2 (by rfl)⟩

/-! ## Lemmas about the phase-boundary state machine -/

theorem tsAt_mono (msgs : List Msg) (h : tsSorted msgs) :
    ∀ i j, i ≤ j → j < msgs.length → tsAt msgs i ≤ tsAt msgs j := by
  have hstep : ∀ k, k + 1 < msgs.length → tsAt msgs k ≤ tsAt msgs (k + 1) := by
    intro k hk
    have hg := List.chain'_iff_get.mp h k (by omega)
    rw [tsAt, tsAt, List.getD_eq_getElem?_getD, List.getD_eq_getElem?_getD,
      List.getElem?_eq_getElem (show k < msgs.length by omega),
      List.getElem?_eq_getElem hk]
    exact hg
  intro i j
  induction j with
  | zero =>
      intro hij _
      have : i = 0 := Nat.le_zero.mp hij
      rw [this]
  | succ j ih =>
      intro hij hj
      rcases Nat.lt_succ_iff_lt_or_eq.mp (Nat.lt_succ_of_le hij) with hlt | rfl
      · exact le_trans (ih (Nat.lt_succ_iff.mp hlt) (by omega)) (hstep j hj)
      · exact le_refl _

theorem lastTs_eq (msgs : List Msg) :
    (msgs.getLastD dMsg).timestamp = tsAt msgs (msgs.length - 1) := by
  rw [tsAt, List.getD_eq_getElem?_getD, List.getLastD_eq_getLast?,
    List.getLast?_eq_getElem?]

theorem getLastD_cons_ne {α : Type} (a d : α) (l : List α) (h : l ≠ []) :
    (a :: l).getLastD d = l.getLastD d := by
  cases l with
  | nil => exact absurd rfl h
  | cons b t => simp [List.getLastD_cons]

theorem drop_cons_facts (msgs : List Msg) (i : Nat) (m : Msg) (rest : List Msg)
    (h : msgs.drop i = m :: rest) :
    i < msgs.length ∧ tsAt msgs i = m.timestamp ∧ msgs.drop (i + 1) = rest := by
  have hget : msgs[i]? = some m := by
    have h0 : (msgs.drop i)[0]? = some m := by rw [h]; simp
    rw [List.getElem?_drop] at h0
    simpa using h0
  obtain ⟨hlt, -⟩ := List.getElem?_eq_some.mp hget
  refine ⟨hlt, ?_, ?_⟩
  · rw [tsAt, List.getD_eq_getElem?_getD, hget]
    rfl
  · rw [← List.tail_drop, h]
    rfl

/-- Invariant of the `_identify_flight_phases` loop: over the suffix
`rem = msgs.drop i` with open phase `cur`, the emitted phases are
well-formed (start ≤ end), contiguous and start-ordered, end at the
last record timestamp whenever anything is emitted, start with the open
phase when one is open, and are empty when no phase is open and no
`MODE` record remains. -/
theorem phasesAux_invariant (msgs : List Msg) (hmono : tsSorted msgs) :
    ∀ (rem : List Msg) (i : Nat) (cur : Option (String × Nat)),
      msgs.drop i = rem →
      (∀ c ps, cur = some (c, ps) → ps ≤ i ∧ ps < msgs.length) →
      ((cur = none → rem.any (fun m => m.message_type == "MODE") = false →
          phasesAux msgs rem i cur = []) ∧
       (∀ p ∈ phasesAux msgs rem i cur, p.start_time ≤ p.end_time) ∧
       List.Chain' (fun a b => a.end_time = b.start_time ∧ a.start_time ≤ b.start_time)
         (phasesAux msgs rem i cur) ∧
       ((cur ≠ none ∨ rem.any (fun m => m.message_type == "MODE") = true) →
          phasesAux msgs rem i cur ≠ [] ∧
          ((phasesAux msgs rem i cur).getLastD dPhase).end_time
            = (msgs.getLastD dMsg).timestamp) ∧
       (∀ c ps, cur = some (c, ps) →
          ∃ q rest2, phasesAux msgs rem i cur = q :: rest2 ∧
            q.phase_name = c ∧ q.start_time = tsAt msgs ps)) := by
  intro rem
  induction rem with
  | nil =>
      intro i cur hdrop hcur
      cases cur with
      | none =>
          refine ⟨fun _ _ => rfl, ?_, ?_, ?_, ?_⟩
          · intro p hp; simp [phasesAux] at hp
          · simp [phasesAux]
          · rintro (hne | hany)
            · exact absurd rfl hne
            · simp at hany
          · intro c ps hc; simp at hc
      | some pr =>
          obtain ⟨c, ps⟩ := pr
          obtain ⟨hle, hlt⟩ := hcur c ps rfl
          have hne : msgs ≠ [] := by
            intro hnil
            rw [hnil] at hlt
            simp at hlt
          have hemp : msgs.isEmpty = false := by
            cases msgs with
            | nil => exact absurd rfl hne
            | cons a t => rfl
          have hL : phasesAux msgs [] i (some (c, ps)) =
              [⟨c, tsAt msgs ps, (msgs.getLastD dMsg).timestamp, [], []⟩] := by
            rw [phasesAux, hemp]
            rfl
          rw [hL]
          have hse : tsAt msgs ps ≤ (msgs.getLastD dMsg).timestamp := by
            rw [lastTs_eq]
            exact tsAt_mono msgs hmono ps (msgs.length - 1) (by omega) (by omega)
          refine ⟨fun hc => by simp at hc, ?_, ?_, ?_, ?_⟩
          · intro p hp
            rw [List.mem_singleton] at hp
            rw [hp]
            exact hse
          · exact List.chain'_singleton _
          · intro _
            exact ⟨by simp, rfl⟩
          · intro c' ps' hc
            simp only [Option.some.injEq, Prod.mk.injEq] at hc
            obtain ⟨rfl, rfl⟩ := hc
            exact ⟨_, [], rfl, rfl, rfl⟩
  | cons m rest ih =>
      intro i cur hdrop hcur
      obtain ⟨hi, hts, hdrop'⟩ := drop_cons_facts msgs i m rest hdrop
      by_cases hmode : m.message_type = "MODE"
      · cases cur with
        | none =>
            have hL : phasesAux msgs (m :: rest) i none =
                phasesAux msgs rest (i + 1) (some (modeName m, i)) := by
              rw [phasesAux, if_pos hmode]
            have hcur' : ∀ c ps, (some (modeName m, i) : Option (String × Nat)) = some (c, ps) →
                ps ≤ i + 1 ∧ ps < msgs.length := by
              intro c ps hc
              simp only [Option.some.injEq, Prod.mk.injEq] at hc
              obtain ⟨rfl, rfl⟩ := hc
              exact ⟨by omega, hi⟩
            obtain ⟨ihA, ihB, ihC, ihD, ihE⟩ :=
              ih (i + 1) (some (modeName m, i)) hdrop' hcur'
            rw [hL]
            refine ⟨?_, ihB, ihC, ?_, ?_⟩
            · intro _ hany
              rw [List.any_cons] at hany
              rw [(by simp [hmode] : (m.message_type == "MODE") = true)] at hany
              simp at hany
            · intro _
              exact ihD (Or.inl (by simp))
            · intro c ps hc
              simp at hc
        | some pr =>
            obtain ⟨c, ps⟩ := pr
            obtain ⟨hle, hlt⟩ := hcur c ps rfl
            have hL : phasesAux msgs (m :: rest) i (some (c, ps)) =
                ⟨c, tsAt msgs ps, m.timestamp, [], []⟩ ::
                  phasesAux msgs rest (i + 1) (some (modeName m, i)) := by
              rw [phasesAux, if_pos hmode]
            have hcur' : ∀ c' ps', (some (modeName m, i) : Option (String × Nat)) = some (c', ps') →
                ps' ≤ i + 1 ∧ ps' < msgs.length := by
              intro c' ps' hc
              simp only [Option.some.injEq, Prod.mk.injEq] at hc
              obtain ⟨rfl, rfl⟩ := hc
              exact ⟨by omega, hi⟩
            obtain ⟨ihA, ihB, ihC, ihD, ihE⟩ :=
              ih (i + 1) (some (modeName m, i)) hdrop' hcur'
            obtain ⟨q, rest2, hq, hqname, hqstart⟩ := ihE (modeName m) i rfl
            have hstart : tsAt msgs ps ≤ m.timestamp := by
              rw [← hts]
              exact tsAt_mono msgs hmono ps i hle hi
            rw [hL]
            refine ⟨fun hc _ => by simp at hc, ?_, ?_, ?_, ?_⟩
            · intro p hp
              rcases List.mem_cons.mp hp with rfl | hp'
              · exact hstart
              · exact ihB p hp'
            · rw [List.chain'_cons']
              refine ⟨?_, ihC⟩
              intro b hb
              rw [hq] at hb
              simp only [List.head?_cons, Option.mem_def, Option.some.injEq] at hb
              rw [← hb]
              constructor
              · rw [hqstart, hts]
              · rw [hqstart, hts]
                exact hstart
            · intro _
              obtain ⟨hne', hlast'⟩ := ihD (Or.inl (by simp))
              constructor
              · simp
              · rw [getLastD_cons_ne _ _ _ hne']
                exact hlast'
            · intro c' ps' hc
              simp only [Option.some.injEq, Prod.mk.injEq] at hc
              obtain ⟨rfl, rfl⟩ := hc
              exact ⟨_, _, rfl, rfl, rfl⟩
      · have hL : phasesAux msgs (m :: rest) i cur =
            phasesAux msgs rest (i + 1) cur := by
          cases cur with
          | none => rw [phasesAux, if_neg hmode]
          | some pr =>
              obtain ⟨c, ps⟩ := pr
              rw [phasesAux, if_neg hmode]
        have hcur' : ∀ c ps, cur = some (c, ps) → ps ≤ i + 1 ∧ ps < msgs.length := by
          intro c ps hc
          obtain ⟨h1, h2⟩ := hcur c ps hc
          exact ⟨by omega, h2⟩
        obtain ⟨ihA, ihB, ihC, ihD, ihE⟩ := ih (i + 1) cur hdrop' hcur'
        rw [hL]
        have hmany : (m.message_type == "MODE") = false := by simp [hmode]
        refine ⟨?_, ihB, ihC, ?_, ihE⟩
        · intro hc hany
          rw [List.any_cons, hmany] at hany
          simp at hany
          exact ihA hc (by simpa using hany)
        · rintro (hne | hany)
          · exact ihD (Or.inl hne)
          · rw [List.any_cons, hmany] at hany
            simp at hany
            exact ihD (Or.inr (by simpa using hany))

/-- C5: under the decoder guarantee of non-decreasing timestamps, an
input with at least one `MODE` record yields a non-empty phase list
that is well-formed (start ≤ end), contiguous (each phase ends exactly
where the next starts, hence non-overlapping) and ordered by start
time, and whose final phase ends at the last record timestamp; an
input with zero `MODE` records yields an empty phase list. -/
theorem identify_flight_phases_props (msgs : List Msg) (hmono : tsSorted msgs) :
    ((msgs.any fun m => m.message_type == "MODE") = false →
        identifyFlightPhases msgs = []) ∧
    ((msgs.any fun m => m.message_type == "MODE") = true →
        identifyFlightPhases msgs ≠ [] ∧
        (∀ p ∈ identifyFlightPhases msgs, p.start_time ≤ p.end_time) ∧
        List.Chain' (fun a b => a.end_time = b.start_time ∧ a.start_time ≤ b.start_time)
          (identifyFlightPhases msgs) ∧
        ((identifyFlightPhases msgs).getLastD dPhase).end_time
          = (msgs.getLastD dMsg).timestamp) := by
  obtain ⟨hA, hB, hC, hD, hE⟩ := phasesAux_invariant msgs hmono msgs 0 none
    (List.drop_zero msgs) (fun c ps hc => by simp at hc)
  rw [identifyFlightPhases]
  constructor
  · intro hno
    exact hA rfl hno
  · intro hyes
    obtain ⟨hne, hlast⟩ := hD (Or.inr hyes)
    exact ⟨hne, hB, hC, hlast⟩

/-- Witness for C5 on `msgsCritEx` (two `MODE` records, sorted
timestamps 0, 1, 2). -/
theorem identify_flight_phases_props_witness :
    identifyFlightPhases msgsCritEx ≠ [] ∧
    ((identifyFlightPhases msgsCritEx).getLastD dPhase).end_time
      = (msgsCritEx.getLastD dMsg).timestamp := by
  have h := (identify_flight_phases_props msgsCritEx
    (by unfold tsSorted msgsCritEx; norm_num)).2 (by rfl)
  exact ⟨h.1, h.2.2.2⟩

/-! ## Lemmas about field coercion -/

theorem jsonSafe_listV_iff (xs : List PyVal) :
    jsonSafe (.listV xs) = true ↔ ∀ x ∈ xs, jsonSafe x = true := by
  rw [jsonSafe]
  rw [List.all_eq_true]
  constructor
  · intro h a ha
    exact h ⟨a, ha⟩ (List.mem_attach xs ⟨a, ha⟩)
  · intro h x _
    exact h x.1 x.2

theorem jsonSafe_floatV_map (ys : List ℚ) :
    jsonSafe (.listV (ys.map PyVal.floatV)) = true := by
  rw [jsonSafe_listV_iff]
  intro x hx
  obtain ⟨q, -, rfl⟩ := List.mem_map.mp hx
  rw [jsonSafe]

theorem makeJsonSafeVal_safe (v : PyVal) (h : decoderShaped v = true) :
    jsonSafe (makeJsonSafeVal v) = true := by
  cases v with
  | intV n =>
      show jsonSafe (PyVal.intV n) = true
      rw [jsonSafe]
  | floatV q =>
      show jsonSafe (PyVal.floatV q) = true
      rw [jsonSafe]
  | strV s =>
      show jsonSafe (PyVal.strV s) = true
      rw [jsonSafe]
  | badTolist r =>
      show jsonSafe (PyVal.strV r) = true
      rw [jsonSafe]
  | arr xs => exact jsonSafe_floatV_map xs
  | listV xs =>
      simp only [makeJsonSafeVal]
      by_cases hb : xs.any raisesTolist
      · rw [if_pos hb]
        rw [jsonSafe]
      · rw [if_neg hb]
        rw [jsonSafe_listV_iff]
        intro x hx
        obtain ⟨y, hy, rfl⟩ := List.mem_map.mp hx
        rw [decoderShaped] at h
        have hyp := List.all_eq_true.mp h y hy
        cases y with
        | intV n =>
            show jsonSafe (PyVal.intV n) = true
            rw [jsonSafe]
        | floatV q =>
            show jsonSafe (PyVal.floatV q) = true
            rw [jsonSafe]
        | strV s =>
            show jsonSafe (PyVal.strV s) = true
            rw [jsonSafe]
        | arr ys => exact jsonSafe_floatV_map ys
        | badTolist r =>
            exact absurd (List.any_eq_true.mpr ⟨.badTolist r, hy, rfl⟩) hb
        | listV ys => exact absurd hyp (by simp)
        | tupleV ys => exact absurd hyp (by simp)
  | tupleV xs =>
      simp only [makeJsonSafeVal]
      by_cases hb : xs.any raisesTolist
      · rw [if_pos hb]
        rw [jsonSafe]
      · rw [if_neg hb]
        rw [jsonSafe_listV_iff]
        intro x hx
        obtain ⟨y, hy, rfl⟩ := List.mem_map.mp hx
        rw [decoderShaped] at h
        have hyp := List.all_eq_true.mp h y hy
        cases y with
        | intV n =>
            show jsonSafe (PyVal.intV n) = true
            rw [jsonSafe]
        | floatV q =>
            show jsonSafe (PyVal.floatV q) = true
            rw [jsonSafe]
        | strV s =>
            show jsonSafe (PyVal.strV s) = true
            rw [jsonSafe]
        | arr ys => exact jsonSafe_floatV_map ys
        | badTolist r =>
            exact absurd (List.any_eq_true.mpr ⟨.badTolist r, hy, rfl⟩) hb
        | listV ys => exact absurd hyp (by simp)
        | tupleV ys => exact absurd hyp (by simp)

/-- C8: on decoder-shaped field mappings (scalars, numpy vectors,
lists/tuples of scalars or vectors, and values whose `tolist` raises
`TypeError`/`AttributeError`), `_make_json_safe` is total: it preserves
the keys, every coerced value is serialization-safe, numpy arrays are
flattened to lists of scalars, and a `tolist`-raising value is replaced
by its string representation instead of surfacing the failure. -/
theorem make_json_safe_total_safe (data : List (String × PyVal))
    (h : data.all (fun kv => decoderShaped kv.2) = true) :
    (makeJsonSafe data).map Prod.fst = data.map Prod.fst ∧
    (makeJsonSafe data).all (fun kv => jsonSafe kv.2) = true ∧
    (∀ k (xs : List ℚ), (k, PyVal.arr xs) ∈ data →
       (k, PyVal.listV (xs.map PyVal.floatV)) ∈ makeJsonSafe data) ∧
    (∀ k r, (k, PyVal.badTolist r) ∈ data → (k, PyVal.strV r) ∈ makeJsonSafe data) := by
  refine ⟨?_, ?_, ?_, ?_⟩
  · rw [makeJsonSafe, List.map_map]
    rfl
  · rw [List.all_eq_true]
    intro kv hkv
    obtain ⟨kv0, hkv0, rfl⟩ := List.mem_map.mp hkv
    exact makeJsonSafeVal_safe kv0.2 (List.all_eq_true.mp h kv0 hkv0)
  · intro k xs hmem
    exact List.mem_map_of_mem (fun kv => (kv.1, makeJsonSafeVal kv.2)) hmem
  · intro k r hmem
    exact List.mem_map_of_mem (fun kv => (kv.1, makeJsonSafeVal kv.2)) hmem

/-- Witness for C8: a numpy vector is flattened and a `tolist`-raising
value is string-substituted. -/
theorem make_json_safe_total_safe_witness :
    ("acc", PyVal.listV [.floatV 1, .floatV 2]) ∈
      makeJsonSafe [("acc", PyVal.arr [1, 2]), ("weird", PyVal.badTolist "<obj>")] ∧
    ("weird", PyVal.strV "<obj>") ∈
      makeJsonSafe [("acc", PyVal.arr [1, 2]), ("weird", PyVal.badTolist "<obj>")] := by
  have h := make_json_safe_total_safe
    [("acc", PyVal.arr [1, 2]), ("weird", PyVal.badTolist "<obj>")] (by rfl)
  constructor
  · have := h.2.2.1 "acc" [1, 2] (by simp)
    simpa using this
  · exact h.2.2.2 "weird" "<obj>" (by simp)

/-! ## Lemmas about the query and summary paths -/

theorem filter_eq_nil_of_other_log {α : Type} (rows : List α) (logOf : α → Int) (fid : Int)
    (h : rows.all (fun r => logOf r != fid) = true) (p : α → Bool)
    (hp : ∀ r, p r = true → logOf r = fid) : rows.filter p = [] := by
  rw [List.filter_eq_nil]
  intro a ha hpa
  have hne : (logOf a != fid) = true := List.all_eq_true.mp h a ha
  exact bne_iff_ne.mp hne (hp a hpa)

/-- C2 as stated is false: a session whose `file_id` points at an
existing `log_metadata` row with no telemetry rows gets a non-`None`
digest, and a session whose `file_id` points at no `log_metadata` row
raises a `TypeError` (the fetch result is subscripted without a null
check), instead of the claimed `None`. -/
theorem no_linked_data_counterexample :
    (∃ s, getIntelligentSummary trivialFmt dbNoTele "s" = .ok (some s)) ∧
    getIntelligentSummary trivialFmt dbNoTele "s" ≠ .ok none ∧
    getIntelligentSummary trivialFmt dbDangling "s"
      = .error "TypeError: NoneType object is not subscriptable" := by
  have hex : ∃ s, getIntelligentSummary trivialFmt dbNoTele "s" = .ok (some s) := ⟨_, rfl⟩
  refine ⟨hex, ?_, rfl⟩
  intro hcon
  obtain ⟨s, hs⟩ := hex
  rw [hcon] at hs
  exact Option.noConfusion (Except.ok.inj hs)

theorem querySpecificData_empty (db : DB) (sid qt : String)
    (lim : Option Nat) (mt pt : Option String) (fid : Int)
    (hsess : sessionFileId db sid = some fid)
    (h : db.smart_telemetry.all (fun r => r.log_id != fid) = true) :
    querySpecificData db sid qt lim mt pt = [] := by
  have hemp : ∀ p : TelemetryRow → Bool, (∀ r, p r = true → r.log_id = fid) →
      db.smart_telemetry.filter p = [] :=
    fun p hp => filter_eq_nil_of_other_log _ (fun r => r.log_id) fid h p hp
  cases hpb : db.poolInit with
  | false => simp [querySpecificData, hpb]
  | true =>
      have hand : ∀ (p q : Bool), (p && q) = true → p = true := by
        intro p q hpq
        rcases p with - | -
        · simp at hpq
        · rfl
      rw [querySpecificData, if_neg (fun hc => hc hpb)]
      simp only [hsess]
      by_cases h1 : qt = "critical_events"
      · rw [if_pos h1,
          hemp _ (fun r hr => of_decide_eq_true (hand _ _ hr))]
        simp [sortRows]
      · rw [if_neg h1]
        by_cases h2 : qt = "message_type"
        · rw [if_pos h2,
            hemp _ (fun r hr => of_decide_eq_true (hand _ _ hr))]
          simp [sortRows]
        · rw [if_neg h2]
          by_cases h3 : qt = "phase"
          · rw [if_pos h3,
              hemp _ (fun r hr => of_decide_eq_true (hand _ _ hr))]
            simp [sortRows]
          · rw [if_neg h3, hemp _ (fun r hr => of_decide_eq_true hr)]
            simp [sortRows]

theorem summary_none_session (F : Fmt) (db : DB) (sid : String)
    (hsess : sessionFileId db sid = none) :
    getIntelligentSummary F db sid = .ok none := by
  cases hpb : db.poolInit with
  | false => simp [getIntelligentSummary, hpb]
  | true => simp [getIntelligentSummary, hpb, hsess]

theorem query_none_session (db : DB) (sid qt : String)
    (lim : Option Nat) (mt pt : Option String)
    (hsess : sessionFileId db sid = none) :
    querySpecificData db sid qt lim mt pt = [] := by
  cases hpb : db.poolInit with
  | false => simp [querySpecificData, hpb]
  | true => simp [querySpecificData, hpb, hsess]

theorem summary_dangling_file (F : Fmt) (db : DB) (sid : String) (fid : Int)
    (hpool : db.poolInit = true)
    (hsess : sessionFileId db sid = some fid)
    (hlog : db.log_metadata.lookup fid = none) :
    getIntelligentSummary F db sid
      = .error "TypeError: NoneType object is not subscriptable" := by
  simp [getIntelligentSummary, hpool, hsess, hlog]

theorem summary_log_without_rows (F : Fmt) (db : DB) (sid : String) (fid : Int)
    (meta : LogMeta)
    (hpool : db.poolInit = true)
    (hsess : sessionFileId db sid = some fid)
    (hlog : db.log_metadata.lookup fid = some meta)
    (hsum : db.message_summaries.all (fun r => r.log_id != fid) = true) :
    ∃ s, getIntelligentSummary F db sid = .ok (some s) := by
  have hflt : db.message_summaries.filter (fun r => decide (r.log_id = fid)) = [] :=
    filter_eq_nil_of_other_log _ (fun r => r.log_id) fid hsum _
      (fun r hr => of_decide_eq_true hr)
  rw [getIntelligentSummary, if_neg (fun hc => hc hpool)]
  simp only [hsess, hlog, hflt, sortRows, List.take_nil, List.isEmpty_nil, if_true]
  exact ⟨_, rfl⟩

/-- C2 (amended): every query operation returns an empty sequence both
when the session has no linked file and when the linked log has no
telemetry rows, and never raises; the summary returns `None` when the
session row is missing or its `file_id` is null/falsy, but when the
`file_id` resolves to an existing `log_metadata` row whose log has no
rows the summary is a non-`None` digest, and when the `file_id`
references no `log_metadata` row the summary raises a `TypeError`. -/
theorem no_linked_data_behaviour (F : Fmt) (db : DB) (sid qt : String)
    (lim : Option Nat) (mt pt : Option String) :
    (sessionFileId db sid = none →
        querySpecificData db sid qt lim mt pt = [] ∧
        getIntelligentSummary F db sid = .ok none) ∧
    (∀ fid, sessionFileId db sid = some fid →
        db.smart_telemetry.all (fun r => r.log_id != fid) = true →
        querySpecificData db sid qt lim mt pt = [] ∧
        (db.poolInit = true → db.log_metadata.lookup fid = none →
          getIntelligentSummary F db sid
            = .error "TypeError: NoneType object is not subscriptable") ∧
        (∀ meta, db.poolInit = true → db.log_metadata.lookup fid = some meta →
          db.message_summaries.all (fun r => r.log_id != fid) = true →
          ∃ s, getIntelligentSummary F db sid = .ok (some s))) := by
  constructor
  · intro hsess
    exact ⟨query_none_session db sid qt lim mt pt hsess, summary_none_session F db sid hsess⟩
  · intro fid hsess htele
    refine ⟨querySpecificData_empty db sid qt lim mt pt fid hsess htele, ?_, ?_⟩
    · intro hpool hlog
      exact summary_dangling_file F db sid fid hpool hsess hlog
    · intro meta hpool hlog hsum
      exact summary_log_without_rows F db sid fid meta hpool hsess hlog hsum

/-- Witness for the amended C2 on `dbNoTele`. -/
theorem no_linked_data_behaviour_witness :
    querySpecificData dbNoTele "s" "critical_events" none none none = [] ∧
    (∃ s, getIntelligentSummary trivialFmt dbNoTele "s" = .ok (some s)) := by
  have h := (no_linked_data_behaviour trivialFmt dbNoTele "s" "critical_events"
    none none none).2 1 (by rfl) (by rfl)
  exact ⟨h.1, h.2.2 ⟨"flight.bin", "2024-01-01", none⟩ (by rfl) (by rfl) (by rfl)⟩

end UAV

